import Mathlib

/-
Verification of the NeMo lhotse cutset configuration resolver
(`nemo/collections/common/data/lhotse/cutset.py`).

The Python module is shallowly embedded below.  Python dicts (omegaconf
DictConfig nodes) are modelled as the union of:
  * structured fields that the code accesses by a fixed name
    (`type`, `weight`, `tags`, `manifest_filepath`, `tarred_audio_filepaths`,
    `shar_path`, `cuts_path`, `components`), and
  * an association list `attrs` holding the propagated attribute keys
    (`shuffle`, `shard_seed`, `text_field`, `lang_field`,
    `missing_sampling_rate_ok`, `max_open_streams`).
The source mutates the config dict in place while propagating attributes
(`item[k] = v`); following the spec's design note ("reimplement with
immutable attribute maps"), propagation here produces a new attribute map
(`propagateStep`), and the resolver receives the item together with its
post-propagation attribute map.  The two key namespaces are disjoint in the
configuration schema, so the split is faithful.

External collaborators (lhotse `CutSet` combinators, the lazy NeMo manifest
iterators) do not live in this repository; they are modelled symbolically:
a `CutSet` value is the tree of combinator applications the module performs,
recording exactly the arguments each lhotse call receives.  An environment
`Env` supplies the records an external iterator would decode from a path,
already grouped into shards.

Python `assert` failures and `ValueError`s are the configuration-shape
failures that the specification collectively calls `ConfigError`; they are
modelled by `Err.configError` (resp. `Err.valueError` for the one
unreachable `raise ValueError`).  Attribute access on a missing key raises
in omegaconf and is modelled by `Err.attributeError`.
-/

namespace Nemo

/-- Association-list lookup, first binding wins (python dict lookup). -/
def alookup {α : Type} (k : String) : List (String × α) → Option α
  | [] => none
  | (k', v) :: rest => if k' = k then some v else alookup k rest

/-- Association-list assignment: update the existing binding in place, or
append a new binding at the end (python dict insertion-order semantics). -/
def aset {α : Type} (m : List (String × α)) (k : String) (v : α) : List (String × α) :=
  match m with
  | [] => [(k, v)]
  | (k', v') :: rest => if k' = k then (k, v) :: rest else (k', v') :: aset rest k v

/-- One training record; the only contract the module uses is that arbitrary
named metadata fields can be set on it (`setattr` in `attach_tags`). -/
structure Entry where
  fields : List (String × String)
deriving DecidableEq, Repr

/-- Read a metadata field of an entry (used only to state theorems). -/
def Entry.getField (e : Entry) (k : String) : Option String :=
  alookup k e.fields

/-- `setattr(cut, key, val)`. -/
def Entry.setField (e : Entry) (k v : String) : Entry :=
  ⟨aset e.fields k v⟩

/-- The `shard_seed` / `seed` policy value: `"trng"`, `"randomized"`, or a
fixed integer seed. -/
inductive Seed where
  | trng
  | randomized
  | fixed (n : Int)
deriving DecidableEq, Repr

/-- A value stored under a propagated attribute key. -/
inductive AVal where
  | bool (b : Bool)
  | str (s : String)
  | seed (s : Seed)
  | natOpt (n : Option Nat)
deriving DecidableEq, Repr

/-- The dict of propagated attributes (`propagate_attrs` in the source). -/
abbrev AttrMap := List (String × AVal)

/-- `config.shuffle` read from an attribute map. -/
def attrShuffle (m : AttrMap) : Bool :=
  match alookup "shuffle" m with
  | some (.bool b) => b
  | _ => false

/-- `config.shard_seed` read from an attribute map. -/
def attrShardSeed (m : AttrMap) : Seed :=
  match alookup "shard_seed" m with
  | some (.seed s) => s
  | _ => .trng

/-- `config.text_field` read from an attribute map. -/
def attrTextField (m : AttrMap) : String :=
  match alookup "text_field" m with
  | some (.str s) => s
  | _ => "text"

/-- `config.lang_field` read from an attribute map. -/
def attrLangField (m : AttrMap) : String :=
  match alookup "lang_field" m with
  | some (.str s) => s
  | _ => "lang"

/-- `config.missing_sampling_rate_ok` read from an attribute map. -/
def attrMissingOk (m : AttrMap) : Bool :=
  match alookup "missing_sampling_rate_ok" m with
  | some (.bool b) => b
  | _ => false

/-- `config.max_open_streams` (also `propagate_attrs.get("max_open_streams")`):
absent and `None` both yield `none`. -/
def attrMaxOpen (m : AttrMap) : Option Nat :=
  match alookup "max_open_streams" m with
  | some (.natOpt o) => o
  | _ => none

/-- `config.manifest_filepath`: either a single path (`str | Path`) or a list
of `[path]` / `[path, weight]` items (the multi-source format). -/
inductive ManifestField where
  | single (path : String)
  | multi (infos : List (String × Option Rat))
deriving DecidableEq, Repr

/-- `config.shar_path`: either a single directory or a list of
`path | [path, weight]` items. -/
inductive SharField where
  | single (path : String)
  | multi (entries : List (String × Option Rat))
deriving DecidableEq, Repr

/-- One node of the input configuration tree (one omegaconf dict of the
`input_config` list).  `components` is non-empty only for `type: group`
nodes; `attrs` holds the node's locally-set propagated attribute keys. -/
inductive Item where
  | mk (itype : String) (weight : Option Rat) (tags : Option (List (String × String)))
       (manifest_filepath : Option ManifestField)
       (tarred_audio_filepaths : Option (List String))
       (shar_path : Option SharField) (cuts_path : Option String)
       (components : List Item) (attrs : AttrMap)
deriving Repr

/-- `item.type`. -/
def Item.itype : Item → String
  | .mk t _ _ _ _ _ _ _ _ => t

/-- `item.get("weight")`. -/
def Item.weight : Item → Option Rat
  | .mk _ w _ _ _ _ _ _ _ => w

/-- `item.get("tags")`. -/
def Item.tags : Item → Option (List (String × String))
  | .mk _ _ tg _ _ _ _ _ _ => tg

/-- `config.manifest_filepath`. -/
def Item.manifest_filepath : Item → Option ManifestField
  | .mk _ _ _ mf _ _ _ _ _ => mf

/-- `config.tarred_audio_filepaths`, flattened from `[[t1], [t2], ...]` to
`[t1, t2, ...]` (the source unpacks each element as `(tar_path,)`). -/
def Item.tarred_audio_filepaths : Item → Option (List String)
  | .mk _ _ _ _ tp _ _ _ _ => tp

/-- `config.shar_path`. -/
def Item.shar_path : Item → Option SharField
  | .mk _ _ _ _ _ sp _ _ _ => sp

/-- `config.cuts_path`. -/
def Item.cuts_path : Item → Option String
  | .mk _ _ _ _ _ _ cp _ _ => cp

/-- `grp_cfg.components`. -/
def Item.components : Item → List Item
  | .mk _ _ _ _ _ _ _ c _ => c

/-- The node's locally-set propagated attribute keys. -/
def Item.attrs : Item → AttrMap
  | .mk _ _ _ _ _ _ _ _ a => a

/-- `item[k] = v` for a propagated attribute key. -/
def Item.setAttr : Item → String → AVal → Item
  | .mk t w tg mf tp sp cp c a, k, v => .mk t w tg mf tp sp cp c (aset a k v)

/-- Failure outcomes of pipeline construction.  The source raises
`AssertionError` for every configuration-shape check; the spec names these
`ConfigError`, which we adopt. -/
inductive Err where
  | configError (msg : String)
  | valueError (msg : String)
  | attributeError (msg : String)
deriving DecidableEq, Repr

/-- A lazy NeMo manifest iterator (`LazyNeMoIterator` /
`LazyNeMoTarredIterator`), modelled by the records it would decode, grouped
into shards for the tarred flavour, together with the constructor arguments
the module passes. -/
inductive NemoIter where
  | plain (text_field lang_field : String) (missing_ok : Bool) (entries : List Entry)
  | tarred (text_field lang_field : String) (shuffle : Bool) (shards : List (List Entry))
deriving DecidableEq, Repr

/-- `len(nemo_iter)`: total number of records. -/
def NemoIter.len : NemoIter → Nat
  | .plain _ _ _ es => es.length
  | .tarred _ _ _ shards => shards.flatten.length

/-- The records the iterator produces, in order. -/
def NemoIter.entries : NemoIter → List Entry
  | .plain _ _ _ es => es
  | .tarred _ _ _ shards => shards.flatten

/-- `nemo_iter.to_shards()`: one single-shard iterator per shard.  Only the
tarred iterator exposes it; calling it on the plain iterator raises. -/
def NemoIter.toShards : NemoIter → Except Err (List NemoIter)
  | .plain _ _ _ _ => .error (.attributeError "to_shards")
  | .tarred tf lf sh shards => .ok (shards.map (fun s => .tarred tf lf sh [s]))

/-- A symbolic lhotse `CutSet`: the tree of combinator applications the
module performs, recording the arguments of every external lhotse call. -/
inductive CutSet where
  | ofIter (it : NemoIter)
  | fromFile (path : String)
  | fromShar (path : String) (seed : Seed)
  | rep (cs : CutSet)
  | mux (cutsets : List CutSet) (weights : Option (List Rat)) (seed : Seed)
  | infinite_mux (cutsets : List CutSet) (weights : Option (List Rat)) (seed : Seed)
      (max_open_streams : Nat)
  | mapTags (tags : List (String × String)) (cs : CutSet)
deriving Repr

/-- The external world: the records found at a manifest / shar path, grouped
into shards. -/
abbrev Env := String → List (List Entry)

/-- `attach_tags(cut, tags)`: set every tag key on the record, in order. -/
def attach_tags (cut : Entry) (tags : List (String × String)) : Entry :=
  tags.foldl (fun c kv => c.setField kv.1 kv.2) cut

/-- `KNOWN_DATASET_CONFIG_TYPES`. -/
def KNOWN_DATASET_CONFIG_TYPES : List String :=
  ["nemo", "nemo_tarred", "lhotse", "lhotse_shar", "group"]

/-- `mux(*cutsets, weights=..., max_open_streams=..., seed=...)`: pick the
lhotse multiplexing flavour.  With a cap, `CutSet.infinite_mux` is called on
the cutsets as given; without one, every cutset is wrapped with `.repeat()`
and `CutSet.mux` is called. -/
def mux (cutsets : List CutSet) (weights : Option (List Rat))
    (max_open_streams : Option Nat) (seed : Seed) : CutSet :=
  match max_open_streams with
  | some cap => CutSet.infinite_mux cutsets weights seed cap
  | none => CutSet.mux (cutsets.map CutSet.rep) weights seed

/-- The loop body of the multi-source branch of `read_nemo_manifest`: for
each `(manifest_info, (tar_path,))` pair of the `zip`, build the iterator,
determine the weight (explicit, or `len(nemo_iter)`), and either split into
one sub-stream per shard (when `max_open_streams` is set) — each sub-stream
paired with the same weight — or emit one stream with that weight. -/
def buildStreams (env : Env) (tf lf : String) (mok shuffle : Bool)
    (max_open : Option Nat) (is_tarred : Bool) :
    List ((String × Option Rat) × Option String) → Except Err (List (CutSet × Rat))
  | [] => .ok []
  | ((p, wopt), _tar) :: rest =>
    let nemo_iter : NemoIter :=
      if is_tarred then .tarred tf lf shuffle (env p) else .plain tf lf mok (env p).flatten
    let weight : Rat :=
      match wopt with
      | none => (nemo_iter.len : Rat)
      | some w => w
    let headRes : Except Err (List (CutSet × Rat)) :=
      match max_open with
      | some _ =>
        match nemo_iter.toShards with
        | .error e => .error e
        | .ok subs => .ok (subs.map (fun s => (CutSet.ofIter s, weight)))
      | none => .ok [(CutSet.ofIter nemo_iter, weight)]
    match headRes with
    | .error e => .error e
    | .ok hd =>
      match buildStreams env tf lf mok shuffle max_open is_tarred rest with
      | .error e => .error e
      | .ok tl => .ok (hd ++ tl)

/-- `read_nemo_manifest(config, is_tarred)`.  `eff` is the config dict's
propagated-attribute part (after in-place propagation in the source). -/
def read_nemo_manifest (env : Env) (config : Item) (eff : AttrMap)
    (is_tarred : Bool) : Except Err CutSet :=
  let tf := attrTextField eff
  let lf := attrLangField eff
  let mok := attrMissingOk eff
  match config.manifest_filepath with
  | none => .error (.attributeError "manifest_filepath")
  | some (.single p) =>
    if is_tarred then
      match config.tarred_audio_filepaths with
      | none => .error (.attributeError "tarred_audio_filepaths")
      | some _ => .ok (.ofIter (.tarred tf lf (attrShuffle eff) (env p)))
    else
      .ok (.ofIter (.plain tf lf mok (env p).flatten))
  | some (.multi infos) =>
    -- `tar_paths = config.tarred_audio_filepaths if is_tarred else repeat((None,))`
    -- `zip` pairs each manifest info with a tar path, truncating to the
    -- shorter list; the non-tarred `repeat` side is unbounded, so there it
    -- never truncates.
    let tarRes : Except Err (List (Option String)) :=
      if is_tarred then
        match config.tarred_audio_filepaths with
        | none => .error (.attributeError "tarred_audio_filepaths")
        | some tps => .ok (tps.map some)
      else .ok (infos.map (fun _ => none))
    match tarRes with
    | .error e => .error e
    | .ok tar_paths =>
      match buildStreams env tf lf mok (attrShuffle eff) (attrMaxOpen eff) is_tarred
          (infos.zip tar_paths) with
      | .error e => .error e
      | .ok cw =>
        .ok (mux (cw.map Prod.fst) (some (cw.map Prod.snd)) (attrMaxOpen eff)
              (attrShardSeed eff))

/-- `read_lhotse_manifest(config, is_tarred)`. -/
def read_lhotse_manifest (env : Env) (config : Item) (eff : AttrMap)
    (is_tarred : Bool) : Except Err CutSet :=
  if is_tarred then
    match config.shar_path with
    | none => .error (.attributeError "shar_path")
    | some (.single p) =>
      .ok (CutSet.rep (CutSet.fromShar p (attrShardSeed eff)))
    | some (.multi entries) =>
      -- each source: `cs = CutSet.from_shar(...)`, weight `len(cs)` unless
      -- given, `cutsets.append(cs.repeat())`
      let pairs : List (CutSet × Rat) := entries.map (fun pw =>
        let w : Rat :=
          match pw.2 with
          | none => ((env pw.1).flatten.length : Rat)
          | some w => w
        (CutSet.rep (CutSet.fromShar pw.1 (attrShardSeed eff)), w))
      .ok (mux (pairs.map Prod.fst) (some (pairs.map Prod.snd)) (attrMaxOpen eff)
            (attrShardSeed eff))
  else
    match config.cuts_path with
    | none => .error (.attributeError "cuts_path")
    | some p => .ok (CutSet.fromFile p)

/-- One iteration of the propagation loop: given `(item, next_propagate_attrs)`
so far and one `(k, v)` of `propagate_attrs`, assign `item[k] = v` when the
item does not set `k`, or record the item's own value in
`next_propagate_attrs` when it does. -/
def propStep (acc : Item × AttrMap) (kv : String × AVal) : Item × AttrMap :=
  match alookup kv.1 acc.1.attrs with
  | none => (acc.1.setAttr kv.1 kv.2, acc.2)
  | some w => (acc.1, aset acc.2 kv.1 w)

/-- The propagation step performed for each item of a group
(`parse_and_combine_datasets` loop head): for each `(k, v)` of
`propagate_attrs` in order, if `k` is not set on the item assign it
(`item[k] = v`); otherwise record the item's own value in
`next_propagate_attrs` (initially a copy of `propagate_attrs`).  Returns the
updated item and `next_propagate_attrs`. -/
def propagateStep (propagate_attrs : AttrMap) (item : Item) : Item × AttrMap :=
  propagate_attrs.foldl propStep (item, propagate_attrs)

/-- The repr-style rendering of the offending type in the f-string
`f"...{grp_cfg.type=}"` of the unknown-type assertion. -/
def quoteStr (s : String) : String := "'" ++ s ++ "'"

mutual

/-- Nesting depth of a configuration node, used as the termination measure
of the resolver (attribute propagation changes only `attrs`, never the
nesting structure). -/
def Item.depth : Item → Nat
  | .mk _ _ _ _ _ _ _ comps _ => 2 + depthList comps

/-- Total nesting depth of a list of configuration nodes. -/
def depthList : List Item → Nat
  | [] => 0
  | i :: rest => Item.depth i + depthList rest

end

theorem Item.depth_eq (it : Item) : it.depth = 2 + depthList it.components := by
  cases it
  rfl

theorem Item.depth_pos (it : Item) : 0 < it.depth := by
  rw [Item.depth_eq]
  omega

theorem depthList_cons (i : Item) (rest : List Item) :
    depthList (i :: rest) = i.depth + depthList rest := rfl

theorem depth_lt_cons1 (i : Item) (rest : List Item) :
    2 * i.depth < 2 * depthList (i :: rest) + 1 := by
  rw [depthList_cons]
  omega

theorem depth_lt_cons2 (i : Item) (rest : List Item) :
    2 * depthList rest + 1 < 2 * depthList (i :: rest) + 1 := by
  rw [depthList_cons]
  have h := i.depth_pos
  omega

/-- The tail of `parse_group`: attach extra tags to every utterance
dynamically, if provided (`cuts.map(partial(attach_tags, tags=extra_tags))`),
passing errors through. -/
def applyTags (item : Item) (r : Except Err (CutSet × Bool)) :
    Except Err (CutSet × Bool) :=
  match r with
  | .error e => .error e
  | .ok (cuts, is_tarred) =>
    match item.tags with
    | some extra_tags => .ok (CutSet.mapTags extra_tags cuts, is_tarred)
    | none => .ok (cuts, is_tarred)

mutual

/-- `parse_group(grp_cfg, propagate_attrs)`.  `eff` is the group config's
propagated-attribute part (the dict after in-place propagation);
`propagate_attrs` is `next_propagate_attrs` handed to nested groups. -/
def parse_group (env : Env) (grp_cfg : Item) (eff : AttrMap)
    (propagate_attrs : AttrMap) : Except Err (CutSet × Bool) :=
  if grp_cfg.itype ∈ KNOWN_DATASET_CONFIG_TYPES then
    applyTags grp_cfg (
      if grp_cfg.itype = "nemo_tarred" then
        match read_nemo_manifest env grp_cfg eff true with
        | .error e => .error e
        | .ok cuts => .ok (cuts, true)
      else if grp_cfg.itype = "nemo" then
        match read_nemo_manifest env grp_cfg eff false with
        | .error e => .error e
        | .ok cuts => .ok (cuts, false)
      else if grp_cfg.itype = "lhotse_shar" then
        match read_lhotse_manifest env grp_cfg eff true with
        | .error e => .error e
        | .ok cuts => .ok (cuts, true)
      else if grp_cfg.itype = "lhotse" then
        match read_lhotse_manifest env grp_cfg eff false with
        | .error e => .error e
        | .ok cuts => .ok (cuts, false)
      else if grp_cfg.itype = "group" then
        parse_and_combine_datasets env grp_cfg.components propagate_attrs
      else
        .error (.valueError ("Unrecognized group: " ++ grp_cfg.itype)))
  else
    .error (.configError
      ("Unknown item type in dataset config list: grp_cfg.type=" ++ quoteStr grp_cfg.itype))
termination_by 2 * grp_cfg.depth
decreasing_by
  simp_wf
  rw [Item.depth_eq]
  omega

/-- `parse_and_combine_datasets(config_list, propagate_attrs)`. -/
def parse_and_combine_datasets (env : Env) (config_list : List Item)
    (propagate_attrs : AttrMap) : Except Err (CutSet × Bool) :=
  match config_list with
  | [] => .error (.configError "Empty group in dataset config list.")
  | item :: rest =>
    match parse_items env (item :: rest) propagate_attrs with
    | .error e => .error e
    | .ok results =>
      let cuts := results.map (fun r => r.1)
      let tarred_status := results.map (fun r => r.2.1)
      let weights := results.filterMap (fun r => r.2.2)
      -- `tarred_status[0]`; `results` is provably non-empty here since
      -- `config_list` is non-empty, so the default is never consulted.
      let t0 := tarred_status.headD false
      if tarred_status.all (fun t => t = t0) then
        if cuts.length = weights.length then
          .ok (mux cuts (if weights.isEmpty then none else some weights)
                (attrMaxOpen propagate_attrs) Seed.trng, t0)
        else
          .error (.configError
            "Missing dataset weight. When weighting datasets, every dataset must have a specified weight.")
      else
        .error (.configError "Mixing tarred and non-tarred datasets is not supported.")
termination_by 2 * depthList config_list + 2
decreasing_by
  all_goals simp_wf

/-- The `for item in config_list` loop of `parse_and_combine_datasets`:
propagate attributes into the item, resolve it, and collect
`(cuts, is_tarred, weight)` per item. -/
def parse_items (env : Env) (config_list : List Item) (propagate_attrs : AttrMap) :
    Except Err (List (CutSet × Bool × Option Rat)) :=
  match config_list with
  | [] => .ok []
  | item :: rest =>
    let pr := propagateStep propagate_attrs item
    match parse_group env item pr.1.attrs pr.2 with
    | .error e => .error e
    | .ok st =>
      match parse_items env rest propagate_attrs with
      | .error e => .error e
      | .ok tl => .ok ((st.1, st.2, pr.1.weight) :: tl)
termination_by 2 * depthList config_list + 1
decreasing_by
  all_goals simp_wf
  all_goals rw [depthList_cons]
  all_goals have h := Item.depth_pos i
  all_goals omega

end

/-- `read_dataset_config(config)`: builds the root `propagate_attrs` dict
from the top-level fields and resolves `config.input_config`.  The root
fields are passed positionally: input_config, shuffle, shard_seed,
text_field, lang_field, missing_sampling_rate_ok, max_open_streams. -/
def read_dataset_config (env : Env) (input_config : List Item) (shuffle : Bool)
    (shard_seed : Seed) (text_field lang_field : String)
    (missing_sampling_rate_ok : Bool) (max_open_streams : Option Nat) :
    Except Err (CutSet × Bool) :=
  parse_and_combine_datasets env input_config
    [("shuffle", .bool shuffle), ("shard_seed", .seed shard_seed),
     ("text_field", .str text_field), ("lang_field", .str lang_field),
     ("missing_sampling_rate_ok", .bool missing_sampling_rate_ok),
     ("max_open_streams", .natOpt max_open_streams)]

mutual

/-- Modelled from the spec: whether a symbolic stream is infinite.  The
lhotse combinators are external collaborators; per the spec, `.repeat()`
self-restarts a stream on exhaustion (making it infinite), `CutSet.mux` is
infinite whenever all its sources are, and `CutSet.infinite_mux` reopens
exhausted sources forever and "never terminates: the output stream is
infinite by construction in both strategies". -/
def CutSet.isInfinite : CutSet → Bool
  | .ofIter _ => false
  | .fromFile _ => false
  | .fromShar _ _ => false
  | .rep _ => true
  | .mux ss _ _ => allInfinite ss
  | .infinite_mux _ _ _ _ => true
  | .mapTags _ cs => cs.isInfinite

/-- All streams in the list are infinite. -/
def allInfinite : List CutSet → Bool
  | [] => true
  | c :: rest => c.isInfinite && allInfinite rest

end

mutual

/-- Modelled from the spec: the records a symbolic stream can emit, with
provenance order (source order; the external multiplexers interleave their
sources in weighted-random draw order but emit exactly the records of their
sources, and `.repeat()` re-emits the same records).  `mapTags` — the Tag
Attacher — applies `attach_tags` to each passed-through record. -/
def CutSet.emittable (env : Env) : CutSet → List Entry
  | .ofIter it => it.entries
  | .fromFile p => (env p).flatten
  | .fromShar p _ => (env p).flatten
  | .rep cs => cs.emittable env
  | .mux ss _ _ => emittableList env ss
  | .infinite_mux ss _ _ _ => emittableList env ss
  | .mapTags tags cs => (cs.emittable env).map (fun e => attach_tags e tags)

/-- Records emittable by a list of streams, in source order. -/
def emittableList (env : Env) : List CutSet → List Entry
  | [] => []
  | c :: rest => c.emittable env ++ emittableList env rest

end

theorem alookup_aset_self {α : Type} (m : List (String × α)) (k : String) (v : α) :
    alookup k (aset m k v) = some v := by
  induction m with
  | nil => simp [aset, alookup]
  | cons kv rest ih =>
    by_cases h : kv.1 = k
    · simp [aset, alookup, h]
    · simp [aset, alookup, h, ih]

theorem alookup_aset_ne {α : Type} (m : List (String × α)) (k k' : String) (v : α)
    (h : k' ≠ k) : alookup k' (aset m k v) = alookup k' m := by
  have hkk : ¬k = k' := fun hh => h hh.symm
  induction m with
  | nil => simp [aset, alookup, hkk]
  | cons kv rest ih =>
    by_cases hk : kv.1 = k
    · have hne : ¬kv.1 = k' := by rw [hk]; exact hkk
      simp [aset, alookup, hk, hkk, hne]
    · by_cases hk' : kv.1 = k'
      · simp [aset, alookup, hk, hk', h]
      · simp [aset, alookup, hk, hk', ih]

theorem attach_tags_getField_notMem :
    ∀ (tags : List (String × String)) (e : Entry) (k : String),
      k ∉ tags.map Prod.fst → (attach_tags e tags).getField k = e.getField k := by
  intro tags
  induction tags with
  | nil =>
    intro e k _
    rfl
  | cons kv rest ih =>
    intro e k h
    simp only [List.map_cons, List.mem_cons] at h
    push_neg at h
    show (attach_tags (e.setField kv.1 kv.2) rest).getField k = e.getField k
    rw [ih (e.setField kv.1 kv.2) k h.2]
    exact alookup_aset_ne e.fields kv.1 k kv.2 h.1

theorem attach_tags_getField_mem :
    ∀ (tags : List (String × String)) (e : Entry) (k v : String),
      (tags.map Prod.fst).Nodup → (k, v) ∈ tags →
      (attach_tags e tags).getField k = some v := by
  intro tags
  induction tags with
  | nil =>
    intro e k v _ h
    simp at h
  | cons kv rest ih =>
    intro e k v hnd h
    simp only [List.map_cons, List.nodup_cons] at hnd
    rcases List.mem_cons.mp h with heq | hmem
    · rw [← heq] at hnd ⊢
      show (attach_tags (e.setField k v) rest).getField k = some v
      rw [attach_tags_getField_notMem rest (e.setField k v) k hnd.1]
      exact alookup_aset_self e.fields k v
    · exact ih (e.setField kv.1 kv.2) k v hnd.2 hmem

theorem parse_items_nil (env : Env) (pa : AttrMap) : parse_items env [] pa = .ok [] := by
  simp [parse_items]

theorem parse_items_cons (env : Env) (item : Item) (rest : List Item) (pa : AttrMap) :
    parse_items env (item :: rest) pa =
      match parse_group env item (propagateStep pa item).1.attrs (propagateStep pa item).2 with
      | .error e => .error e
      | .ok st =>
        match parse_items env rest pa with
        | .error e => .error e
        | .ok tl => .ok ((st.1, st.2, (propagateStep pa item).1.weight) :: tl) := by
  simp [parse_items]

theorem parse_items_length (env : Env) (cl : List Item) (pa : AttrMap)
    (rs : List (CutSet × Bool × Option Rat)) (h : parse_items env cl pa = .ok rs) :
    rs.length = cl.length := by
  induction cl generalizing rs with
  | nil => rw [parse_items_nil] at h; cases h; rfl
  | cons item rest ih =>
    rw [parse_items_cons] at h
    cases hg : parse_group env item (propagateStep pa item).1.attrs (propagateStep pa item).2 with
    | error e => rw [hg] at h; cases h
    | ok st =>
      rw [hg] at h
      cases ht : parse_items env rest pa with
      | error e => rw [ht] at h; cases h
      | ok tl =>
        rw [ht] at h
        cases h
        simp [ih tl ht]

theorem mux_none (cs : List CutSet) (w : Option (List Rat)) (seed : Seed) :
    mux cs w none seed = CutSet.mux (cs.map CutSet.rep) w seed := rfl

theorem mux_some (cs : List CutSet) (w : Option (List Rat)) (cap : Nat) (seed : Seed) :
    mux cs w (some cap) seed = CutSet.infinite_mux cs w seed cap := rfl

/-- Shape of a successful group resolution: the resolved children, all
agreeing with the returned `is_tarred`, multiplexed with the group's
`max_open_streams` from `propagate_attrs` and the default seed policy. -/
theorem parse_and_combine_ok (env : Env) (cl : List Item) (pa : AttrMap)
    (S : CutSet) (t : Bool)
    (h : parse_and_combine_datasets env cl pa = .ok (S, t)) :
    ∃ rs, parse_items env cl pa = .ok rs ∧ rs ≠ [] ∧
      (∀ r ∈ rs, r.2.1 = t) ∧
      (rs.map (fun r => r.1)).length = (rs.filterMap (fun r => r.2.2)).length ∧
      S = mux (rs.map (fun r => r.1))
            (if (rs.filterMap (fun r => r.2.2)).isEmpty then none
             else some (rs.filterMap (fun r => r.2.2)))
            (attrMaxOpen pa) Seed.trng := by
  cases cl with
  | nil => simp [parse_and_combine_datasets] at h
  | cons item rest =>
    rw [parse_and_combine_datasets] at h
    cases hp : parse_items env (item :: rest) pa with
    | error e => rw [hp] at h; simp at h
    | ok rs =>
      rw [hp] at h
      simp only [] at h
      refine ⟨rs, rfl, ?_, ?_⟩
      · have hlen := parse_items_length env (item :: rest) pa rs hp
        intro hnil
        rw [hnil] at hlen
        simp at hlen
      · split at h
        · split at h
          · rename_i hall hlen
            rw [Except.ok.injEq, Prod.mk.injEq] at h
            obtain ⟨hS, ht0⟩ := h
            refine ⟨?_, ?_, ?_⟩
            · intro r hr
              rw [← ht0]
              have hmem : r.2.1 ∈ rs.map (fun r => r.2.1) := List.mem_map_of_mem _ hr
              exact of_decide_eq_true (List.all_eq_true.mp hall _ hmem)
            · exact hlen
            · exact hS.symm
          · simp at h
        · simp at h

theorem emittableList_nil (env : Env) : emittableList env [] = [] := by
  simp [emittableList]

theorem emittableList_cons (env : Env) (c : CutSet) (rest : List CutSet) :
    emittableList env (c :: rest) = c.emittable env ++ emittableList env rest := by
  simp [emittableList]

theorem emittable_rep (env : Env) (cs : CutSet) :
    (CutSet.rep cs).emittable env = cs.emittable env := by
  simp [CutSet.emittable]

theorem emittable_mapTags (env : Env) (tags : List (String × String)) (cs : CutSet) :
    (CutSet.mapTags tags cs).emittable env =
      (cs.emittable env).map (fun e => attach_tags e tags) := by
  simp [CutSet.emittable]

theorem emittableList_map_rep (env : Env) (cs : List CutSet) :
    emittableList env (cs.map CutSet.rep) = emittableList env cs := by
  induction cs with
  | nil => rfl
  | cons c rest ih => simp [emittableList_cons, emittable_rep, ih]

theorem emittable_mux_fn (env : Env) (cs : List CutSet) (w : Option (List Rat))
    (mos : Option Nat) (seed : Seed) :
    (mux cs w mos seed).emittable env = emittableList env cs := by
  cases mos with
  | none => simp [mux_none, CutSet.emittable, emittableList_map_rep]
  | some cap => simp [mux_some, CutSet.emittable]

theorem isInfinite_rep (cs : CutSet) : (CutSet.rep cs).isInfinite = true := by
  simp [CutSet.isInfinite]

theorem allInfinite_map_rep (cs : List CutSet) :
    allInfinite (cs.map CutSet.rep) = true := by
  induction cs with
  | nil => simp [allInfinite]
  | cons c rest ih => simp [allInfinite, isInfinite_rep, ih]

theorem mux_isInfinite (cs : List CutSet) (w : Option (List Rat)) (mos : Option Nat)
    (seed : Seed) : (mux cs w mos seed).isInfinite = true := by
  cases mos with
  | none => simp [mux_none, CutSet.isInfinite, allInfinite_map_rep]
  | some cap => simp [mux_some, CutSet.isInfinite]

theorem Item.attrs_setAttr (it : Item) (k : String) (v : AVal) :
    (it.setAttr k v).attrs = aset it.attrs k v := by
  cases it
  rfl

theorem attrs_foldl_preserved :
    ∀ (pa : AttrMap) (acc : Item × AttrMap) (k : String) (w : AVal),
      alookup k acc.1.attrs = some w →
      alookup k (pa.foldl propStep acc).1.attrs = some w := by
  intro pa
  induction pa with
  | nil =>
    intro acc k w h
    exact h
  | cons kv rest ih =>
    intro acc k w h
    rw [List.foldl_cons]
    cases hstep : alookup kv.1 acc.1.attrs with
    | none =>
      have hne : k ≠ kv.1 := by
        intro he
        rw [he, hstep] at h
        cases h
      apply ih
      simp only [propStep, hstep, Item.attrs_setAttr]
      rw [alookup_aset_ne acc.1.attrs kv.1 k kv.2 hne]
      exact h
    | some w' =>
      apply ih
      simp only [propStep, hstep]
      exact h

theorem next_foldl_notMem :
    ∀ (pa : AttrMap) (acc : Item × AttrMap) (k : String),
      k ∉ pa.map Prod.fst →
      alookup k (pa.foldl propStep acc).2 = alookup k acc.2 := by
  intro pa
  induction pa with
  | nil =>
    intro acc k _
    rfl
  | cons kv rest ih =>
    intro acc k h
    simp only [List.map_cons, List.mem_cons] at h
    push_neg at h
    rw [List.foldl_cons, ih _ k h.2]
    cases hstep : alookup kv.1 acc.1.attrs with
    | none => simp [propStep, hstep]
    | some w' =>
      simp only [propStep, hstep]
      exact alookup_aset_ne acc.2 kv.1 k w' h.1

theorem next_foldl_present :
    ∀ (pa : AttrMap) (acc : Item × AttrMap) (k : String) (w : AVal),
      (pa.map Prod.fst).Nodup → alookup k acc.1.attrs = some w →
      k ∈ pa.map Prod.fst →
      alookup k (pa.foldl propStep acc).2 = some w := by
  intro pa
  induction pa with
  | nil =>
    intro acc k w _ _ hmem
    simp at hmem
  | cons kv rest ih =>
    intro acc k w hnd hk hmem
    simp only [List.map_cons, List.nodup_cons] at hnd
    rw [List.foldl_cons]
    by_cases he : kv.1 = k
    · have hstep : alookup kv.1 acc.1.attrs = some w := by rw [he]; exact hk
      simp only [propStep, hstep]
      rw [next_foldl_notMem rest _ k (by rw [← he]; exact hnd.1)]
      rw [he]
      exact alookup_aset_self acc.2 k w
    · rcases List.mem_cons.mp hmem with h1 | h2
      · exact absurd h1.symm he
      · cases hstep : alookup kv.1 acc.1.attrs with
        | none =>
          apply ih _ k w hnd.2 _ h2
          simp only [propStep, hstep, Item.attrs_setAttr]
          rw [alookup_aset_ne acc.1.attrs kv.1 k kv.2 (fun hh => he hh.symm)]
          exact hk
        | some w' =>
          apply ih _ k w hnd.2 _ h2
          simp only [propStep, hstep]
          exact hk

theorem foldl_absent :
    ∀ (pa : AttrMap) (acc : Item × AttrMap) (k : String) (v : AVal),
      (pa.map Prod.fst).Nodup → alookup k acc.1.attrs = none →
      alookup k pa = some v →
      alookup k (pa.foldl propStep acc).1.attrs = some v ∧
      alookup k (pa.foldl propStep acc).2 = alookup k acc.2 := by
  intro pa
  induction pa with
  | nil =>
    intro acc k v _ _ hpa
    cases hpa
  | cons kv rest ih =>
    intro acc k v hnd habs hpa
    simp only [List.map_cons, List.nodup_cons] at hnd
    rw [List.foldl_cons]
    by_cases he : kv.1 = k
    · have hv : kv.2 = v := by
        have : alookup k (kv :: rest) = some kv.2 := by simp [alookup, he]
        rw [hpa] at this
        cases this
        rfl
      constructor
      · apply attrs_foldl_preserved
        simp only [propStep, he, habs, Item.attrs_setAttr, hv]
        exact alookup_aset_self acc.1.attrs k v
      · rw [next_foldl_notMem rest _ k (by rw [← he]; exact hnd.1)]
        simp only [propStep, he, habs]
    · have hpa' : alookup k rest = some v := by
        have : alookup k (kv :: rest) = alookup k rest := by simp [alookup, he]
        rw [← this, hpa]
      cases hstep : alookup kv.1 acc.1.attrs with
      | none =>
        have habs' : alookup k (acc.1.setAttr kv.1 kv.2).attrs = none := by
          rw [Item.attrs_setAttr]
          rw [alookup_aset_ne acc.1.attrs kv.1 k kv.2 (fun hh => he hh.symm)]
          exact habs
        have := ih (acc.1.setAttr kv.1 kv.2, acc.2) k v hnd.2 habs' hpa'
        simp only [propStep, hstep]
        exact this
      | some w' =>
        have := ih (acc.1, aset acc.2 kv.1 w') k v hnd.2 habs hpa'
        simp only [propStep, hstep]
        rw [this.2]
        exact ⟨this.1, alookup_aset_ne acc.2 kv.1 k w' (fun hh => he hh.symm)⟩

theorem alookup_mem {α : Type} :
    ∀ (m : List (String × α)) (k : String) (v : α),
      alookup k m = some v → k ∈ m.map Prod.fst := by
  intro m
  induction m with
  | nil =>
    intro k v h
    cases h
  | cons kv rest ih =>
    intro k v h
    by_cases he : kv.1 = k
    · simp [he]
    · simp only [alookup, he, if_false] at h
      simp [ih k v h]

theorem applyTags_ok (item : Item) (r : Except Err (CutSet × Bool)) (S : CutSet)
    (t : Bool) (h : applyTags item r = .ok (S, t)) :
    ∃ cuts, r = .ok (cuts, t) ∧
      ((item.tags = none ∧ S = cuts) ∨
       ∃ T, item.tags = some T ∧ S = CutSet.mapTags T cuts) := by
  cases r with
  | error e => simp [applyTags] at h
  | ok p =>
    obtain ⟨cuts, tb⟩ := p
    cases htags : item.tags with
    | none =>
      simp only [applyTags, htags] at h
      rw [Except.ok.injEq, Prod.mk.injEq] at h
      exact ⟨cuts, by rw [h.2], Or.inl ⟨rfl, h.1.symm⟩⟩
    | some T =>
      simp only [applyTags, htags] at h
      rw [Except.ok.injEq, Prod.mk.injEq] at h
      exact ⟨cuts, by rw [h.2], Or.inr ⟨T, rfl, h.1.symm⟩⟩

theorem parse_items_pair (env : Env) (pa : AttrMap) (a b : Item) (sa sb : CutSet)
    (ta tb : Bool)
    (hga : parse_group env a (propagateStep pa a).1.attrs (propagateStep pa a).2 = .ok (sa, ta))
    (hgb : parse_group env b (propagateStep pa b).1.attrs (propagateStep pa b).2 = .ok (sb, tb)) :
    parse_items env [a, b] pa =
      .ok [(sa, ta, (propagateStep pa a).1.weight), (sb, tb, (propagateStep pa b).1.weight)] := by
  rw [parse_items_cons, hga, parse_items_cons, hgb, parse_items_nil]

/-- The single stream/weight pair produced for one `(manifest_info, tar_path)`
entry when no open-stream cap is set. -/
def buildOne (env : Env) (tf lf : String) (mok sh : Bool) (is_t : Bool)
    (pr : (String × Option Rat) × Option String) : CutSet × Rat :=
  let nemo_iter : NemoIter :=
    if is_t then .tarred tf lf sh (env pr.1.1) else .plain tf lf mok (env pr.1.1).flatten
  (CutSet.ofIter nemo_iter,
   match pr.1.2 with
   | none => (nemo_iter.len : Rat)
   | some w => w)

theorem buildStreams_none (env : Env) (tf lf : String) (mok sh : Bool) (is_t : Bool) :
    ∀ (pairs : List ((String × Option Rat) × Option String)),
      buildStreams env tf lf mok sh none is_t pairs =
        .ok (pairs.map (buildOne env tf lf mok sh is_t)) := by
  intro pairs
  induction pairs with
  | nil => simp [buildStreams]
  | cons pr rest ih =>
    obtain ⟨⟨p, wopt⟩, tar⟩ := pr
    simp only [buildStreams, ih, buildOne]
    rfl

theorem parse_group_unknown (env : Env) (item : Item) (eff pa : AttrMap)
    (h : item.itype ∉ KNOWN_DATASET_CONFIG_TYPES) :
    parse_group env item eff pa =
      .error (.configError
        ("Unknown item type in dataset config list: grp_cfg.type=" ++ quoteStr item.itype)) := by
  rw [parse_group, if_neg h]

theorem parse_group_kind_tarred (env : Env) (item : Item) (eff pa : AttrMap)
    (S : CutSet) (b : Bool) (h : parse_group env item eff pa = .ok (S, b)) :
    (item.itype = "nemo_tarred" → b = true) ∧ (item.itype = "nemo" → b = false) ∧
    (item.itype = "lhotse_shar" → b = true) ∧ (item.itype = "lhotse" → b = false) := by
  refine ⟨?_, ?_, ?_, ?_⟩
  · intro hit
    rw [parse_group, hit] at h
    simp [KNOWN_DATASET_CONFIG_TYPES] at h
    obtain ⟨cuts, hr, _⟩ := applyTags_ok item _ S b h
    cases hread : read_nemo_manifest env item eff true with
    | error e => rw [hread] at hr; cases hr
    | ok c =>
      rw [hread] at hr
      rw [Except.ok.injEq, Prod.mk.injEq] at hr
      exact hr.2.symm
  · intro hit
    rw [parse_group, hit] at h
    simp [KNOWN_DATASET_CONFIG_TYPES] at h
    obtain ⟨cuts, hr, _⟩ := applyTags_ok item _ S b h
    cases hread : read_nemo_manifest env item eff false with
    | error e => rw [hread] at hr; cases hr
    | ok c =>
      rw [hread] at hr
      rw [Except.ok.injEq, Prod.mk.injEq] at hr
      exact hr.2.symm
  · intro hit
    rw [parse_group, hit] at h
    simp [KNOWN_DATASET_CONFIG_TYPES] at h
    obtain ⟨cuts, hr, _⟩ := applyTags_ok item _ S b h
    cases hread : read_lhotse_manifest env item eff true with
    | error e => rw [hread] at hr; cases hr
    | ok c =>
      rw [hread] at hr
      rw [Except.ok.injEq, Prod.mk.injEq] at hr
      exact hr.2.symm
  · intro hit
    rw [parse_group, hit] at h
    simp [KNOWN_DATASET_CONFIG_TYPES] at h
    obtain ⟨cuts, hr, _⟩ := applyTags_ok item _ S b h
    cases hread : read_lhotse_manifest env item eff false with
    | error e => rw [hread] at hr; cases hr
    | ok c =>
      rw [hread] at hr
      rw [Except.ok.injEq, Prod.mk.injEq] at hr
      exact hr.2.symm

theorem parse_group_tags_shape (env : Env) (item : Item) (eff pa : AttrMap)
    (S : CutSet) (t : Bool) (T : List (String × String)) (hT : item.tags = some T)
    (h : parse_group env item eff pa = .ok (S, t)) :
    ∃ inner, S = CutSet.mapTags T inner ∧
      S.emittable env = (inner.emittable env).map (fun e => attach_tags e T) := by
  rw [parse_group] at h
  split at h
  · obtain ⟨cuts, _, hcase⟩ := applyTags_ok item _ S t h
    rcases hcase with ⟨hnone, _⟩ | ⟨T', hsome, hS⟩
    · rw [hT] at hnone
      cases hnone
    · rw [hT] at hsome
      rw [Option.some.injEq] at hsome
      rw [← hsome] at hS
      exact ⟨cuts, hS, by rw [hS, emittable_mapTags]⟩
  · cases h

theorem emittableList_shards (env : Env) (tf lf : String) (sh : Bool) :
    ∀ shards : List (List Entry),
      emittableList env
        (shards.map (fun s => CutSet.ofIter (NemoIter.tarred tf lf sh [s]))) =
      shards.flatten := by
  intro shards
  induction shards with
  | nil => simp [emittableList]
  | cons s rest ih =>
    simp [emittableList_cons, CutSet.emittable, NemoIter.entries, ih]

/-- Fixture record used in concrete examples. -/
def entA : Entry := ⟨[("id", "a")]⟩

/-- Fixture record. -/
def entB : Entry := ⟨[("id", "b")]⟩

/-- Fixture record. -/
def entC : Entry := ⟨[("id", "c")]⟩

/-- Fixture environment: manifest `mA` decodes to two one-record shards,
every other path to one single-record shard. -/
def exEnv : Env := fun p => if p = "mA" then [[entA], [entB]] else [[entC]]

/-- A root `propagate_attrs` dict with a fixed integer seed policy and no
open-stream cap. -/
def rootAttrs : AttrMap :=
  [("shuffle", AVal.bool true), ("shard_seed", AVal.seed (Seed.fixed 42)),
   ("text_field", AVal.str "text"), ("lang_field", AVal.str "lang"),
   ("missing_sampling_rate_ok", AVal.bool false),
   ("max_open_streams", AVal.natOpt none)]

/-- A single-path tarred NeMo leaf configuration. -/
def nemoTarredLeaf (p : String) (w : Option Rat) : Item :=
  Item.mk "nemo_tarred" w none (some (ManifestField.single p)) (some [p ++ ".tar"])
    none none [] []

/-- A tarred multi-source NeMo leaf with two manifest paths but a single
tarred-archive path (mismatched list lengths). -/
def mismatchedLeaf : Item :=
  Item.mk "nemo_tarred" none none
    (some (ManifestField.multi [("mA", none), ("mB", none)]))
    (some ["tA.tar"]) none none [] []

/-- C10: resolving an empty group fails with the "Empty group" ConfigError
for every environment and attribute map — the failure happens before any
child is materialized, and `parse_and_combine_datasets` never returns a
stream for an empty configuration list. -/
theorem C10_empty_group (env : Env) (pa : AttrMap) :
    parse_and_combine_datasets env [] pa =
      .error (.configError "Empty group in dataset config list.") := by
  simp [parse_and_combine_datasets]

/-- C6: `mux` selects the strategy by `max_open_streams` — with `none`,
every input stream is wrapped with `.repeat()` (self-restart on exhaustion)
before the unbounded `CutSet.mux`; with `some cap`, the bounded
`CutSet.infinite_mux` is used with that cap and the inputs are not
pre-wrapped — and in either case the result is an infinite stream. -/
theorem C6_mux_strategy (cutsets : List CutSet) (weights : Option (List Rat))
    (seed : Seed) :
    mux cutsets weights none seed = CutSet.mux (cutsets.map CutSet.rep) weights seed ∧
    (∀ cap, mux cutsets weights (some cap) seed =
      CutSet.infinite_mux cutsets weights seed cap) ∧
    (∀ mos, (mux cutsets weights mos seed).isInfinite = true) :=
  ⟨mux_none cutsets weights seed,
   fun cap => mux_some cutsets weights cap seed,
   fun mos => mux_isInfinite cutsets weights mos seed⟩

/-- C1: a group with one weighted and one unweighted child fails with the
missing-weight ConfigError, as the claim states; but a group where *no*
child supplies a weight — which the claim says resolves successfully with
the multiplexer invoked with no explicit weights — fails with the very same
error, because `len(cuts) == len(weights)` also rejects the empty weight
list (so the `weights if weights else None` argument on the next source
line is unreachable). -/
theorem C1_weight_rule_eval :
    parse_and_combine_datasets exEnv
        [nemoTarredLeaf "mA" (some 1), nemoTarredLeaf "mB" none] rootAttrs =
      .error (.configError
        "Missing dataset weight. When weighting datasets, every dataset must have a specified weight.") ∧
    parse_and_combine_datasets exEnv
        [nemoTarredLeaf "mA" none, nemoTarredLeaf "mB" none] rootAttrs =
      .error (.configError
        "Missing dataset weight. When weighting datasets, every dataset must have a specified weight.") := by
  constructor <;>
    simp [parse_and_combine_datasets, parse_items, parse_group, applyTags,
      read_nemo_manifest, read_lhotse_manifest, buildStreams, propagateStep, propStep,
      mux, quoteStr, KNOWN_DATASET_CONFIG_TYPES, Item.itype, Item.attrs, Item.setAttr,
      Item.manifest_filepath, Item.tarred_audio_filepaths, Item.shar_path,
      Item.cuts_path, Item.tags, Item.weight, Item.components, alookup, aset,
      attrTextField, attrLangField, attrMissingOk, attrShuffle, attrShardSeed,
      attrMaxOpen, nemoTarredLeaf, rootAttrs, exEnv, entA, entB, entC,
      NemoIter.len, NemoIter.toShards, NemoIter.entries]

/-- C2 counterexample: a group resolved under the propagated seed policy
`fixed 42` is nevertheless multiplexed with the unconditional default
`trng` seed (`mux` is called without a `seed` argument in
`parse_and_combine_datasets`), so the output draw order is not governed by
the group's propagated seed policy. -/
theorem C2_counterexample :
    attrShardSeed rootAttrs = Seed.fixed 42 ∧
    parse_and_combine_datasets exEnv
        [nemoTarredLeaf "mA" (some 1), nemoTarredLeaf "mB" (some 2)] rootAttrs =
      .ok (CutSet.mux
        [CutSet.rep (CutSet.ofIter (NemoIter.tarred "text" "lang" true [[entA], [entB]])),
         CutSet.rep (CutSet.ofIter (NemoIter.tarred "text" "lang" true [[entC]]))]
        (some [1, 2]) Seed.trng, true) ∧
    Seed.trng ≠ Seed.fixed 42 := by
  refine ⟨rfl, ?_, by decide⟩
  simp [parse_and_combine_datasets, parse_items, parse_group, applyTags,
    read_nemo_manifest, read_lhotse_manifest, buildStreams, propagateStep, propStep,
    mux, quoteStr, KNOWN_DATASET_CONFIG_TYPES, Item.itype, Item.attrs, Item.setAttr,
    Item.manifest_filepath, Item.tarred_audio_filepaths, Item.shar_path,
    Item.cuts_path, Item.tags, Item.weight, Item.components, alookup, aset,
    attrTextField, attrLangField, attrMissingOk, attrShuffle, attrShardSeed,
    attrMaxOpen, nemoTarredLeaf, rootAttrs, exEnv, entA, entB, entC,
    NemoIter.len, NemoIter.toShards, NemoIter.entries]

/-- C2 (amended): every successful group resolution invokes the multiplexer
with the group's propagated `max_open_streams`, but with the *default* seed
policy `trng` — the group's propagated `shard_seed` is not forwarded, so
the draw order is governed by the unconditional default. -/
theorem C2_group_mux_arguments (env : Env) (cl : List Item) (pa : AttrMap)
    (S : CutSet) (t : Bool)
    (h : parse_and_combine_datasets env cl pa = .ok (S, t)) :
    ∃ ss w, S = mux ss w (attrMaxOpen pa) Seed.trng := by
  obtain ⟨rs, _, _, _, _, hS⟩ := parse_and_combine_ok env cl pa S t h
  exact ⟨_, _, hS⟩

/-- Witness for `C2_group_mux_arguments` at a concrete input. -/
theorem C2_group_mux_arguments_witness :
    ∃ ss w,
      CutSet.mux
        [CutSet.rep (CutSet.ofIter (NemoIter.tarred "text" "lang" true [[entA], [entB]])),
         CutSet.rep (CutSet.ofIter (NemoIter.tarred "text" "lang" true [[entC]]))]
        (some [1, 2]) Seed.trng = mux ss w (attrMaxOpen rootAttrs) Seed.trng :=
  C2_group_mux_arguments exEnv [nemoTarredLeaf "mA" (some 1), nemoTarredLeaf "mB" (some 2)]
    rootAttrs _ true
    (by simp [parse_and_combine_datasets, parse_items, parse_group, applyTags,
      read_nemo_manifest, read_lhotse_manifest, buildStreams, propagateStep, propStep,
      mux, quoteStr, KNOWN_DATASET_CONFIG_TYPES, Item.itype, Item.attrs, Item.setAttr,
      Item.manifest_filepath, Item.tarred_audio_filepaths, Item.shar_path,
      Item.cuts_path, Item.tags, Item.weight, Item.components, alookup, aset,
      attrTextField, attrLangField, attrMissingOk, attrShuffle, attrShardSeed,
      attrMaxOpen, nemoTarredLeaf, rootAttrs, exEnv, entA, entB, entC,
      NemoIter.len, NemoIter.toShards, NemoIter.entries])

/-- C3 counterexample: a tarred multi-source leaf with two manifest paths
but only one tarred-archive path does *not* fail with a ConfigError —
materialization succeeds, silently pairing only the common prefix of the
two lists (a single stream, built from the first manifest only). -/
theorem C3_counterexample :
    mismatchedLeaf.manifest_filepath =
      some (ManifestField.multi [("mA", none), ("mB", none)]) ∧
    mismatchedLeaf.tarred_audio_filepaths = some ["tA.tar"] ∧
    read_nemo_manifest exEnv mismatchedLeaf rootAttrs true =
      .ok (CutSet.mux
        [CutSet.rep (CutSet.ofIter (NemoIter.tarred "text" "lang" true [[entA], [entB]]))]
        (some [2]) (Seed.fixed 42)) := by
  refine ⟨rfl, rfl, ?_⟩
  simp [read_nemo_manifest, buildStreams, mux, Item.manifest_filepath,
    Item.tarred_audio_filepaths, alookup, aset, attrTextField, attrLangField,
    attrMissingOk, attrShuffle, attrShardSeed, attrMaxOpen, mismatchedLeaf,
    rootAttrs, exEnv, entA, entB, entC, NemoIter.len, NemoIter.toShards,
    NemoIter.entries]

/-- C3 (amended): for a tarred multi-source leaf, mismatched manifest/tar
path list lengths are not detected: `zip` silently pairs only the common
prefix, so materialization succeeds with `min` of the two lengths streams
(stated here without an open-stream cap; the excess entries of the longer
list are dropped). -/
theorem C3_zip_truncates (env : Env) (config : Item) (eff : AttrMap)
    (infos : List (String × Option Rat)) (tps : List String)
    (hm : config.manifest_filepath = some (ManifestField.multi infos))
    (ht : config.tarred_audio_filepaths = some tps)
    (hcap : attrMaxOpen eff = none) :
    ∃ cw : List (CutSet × Rat), read_nemo_manifest env config eff true =
        .ok (mux (cw.map Prod.fst) (some (cw.map Prod.snd)) none (attrShardSeed eff)) ∧
      cw.length = min infos.length tps.length := by
  refine ⟨(infos.zip (tps.map some)).map
    (buildOne env (attrTextField eff) (attrLangField eff) (attrMissingOk eff)
      (attrShuffle eff) true), ?_, ?_⟩
  · simp only [read_nemo_manifest, hm, ht, hcap, if_true, buildStreams_none]
  · rw [List.length_map, List.length_zip, List.length_map]

/-- The root attribute map with an open-stream cap of 2. -/
def cappedAttrs : AttrMap :=
  [("shuffle", AVal.bool true), ("shard_seed", AVal.seed (Seed.fixed 42)),
   ("text_field", AVal.str "text"), ("lang_field", AVal.str "lang"),
   ("missing_sampling_rate_ok", AVal.bool false),
   ("max_open_streams", AVal.natOpt (some 2))]

/-- A tarred multi-source NeMo leaf with one two-shard manifest of explicit
weight 5. -/
def shardedLeaf : Item :=
  Item.mk "nemo_tarred" none none
    (some (ManifestField.multi [("mA", some 5)])) (some ["tA.tar"]) none none [] []

/-- A configuration node with an unrecognized `type`. -/
def bogusLeaf : Item :=
  Item.mk "bogus" none none none none none none [] []

/-- A leaf that locally overrides the propagated `shuffle` attribute. -/
def overridingLeaf : Item :=
  Item.mk "nemo" none none (some (ManifestField.single "mB")) none none none []
    [("shuffle", AVal.bool false)]

/-- C5: a multi-shard tarred NeMo leaf resolved under an open-stream cap is
split into one sub-stream per shard via `to_shards()`, and every sub-stream
is paired with the parent's full original weight (not divided by the shard
count), with the total record count across sub-streams equal to the
unsplit leaf's count; without a cap the leaf yields exactly one stream with
that weight. -/
theorem C5_shard_splitting (env : Env) (config : Item) (eff : AttrMap)
    (p tp : String) (w : Rat)
    (hm : config.manifest_filepath = some (ManifestField.multi [(p, some w)]))
    (ht : config.tarred_audio_filepaths = some [tp]) :
    (∀ cap, attrMaxOpen eff = some cap →
       read_nemo_manifest env config eff true =
         .ok (mux
           ((env p).map (fun s => CutSet.ofIter
             (NemoIter.tarred (attrTextField eff) (attrLangField eff) (attrShuffle eff) [s])))
           (some ((env p).map (fun _ => w))) (some cap) (attrShardSeed eff)) ∧
       emittableList env
         ((env p).map (fun s => CutSet.ofIter
           (NemoIter.tarred (attrTextField eff) (attrLangField eff) (attrShuffle eff) [s]))) =
       (NemoIter.tarred (attrTextField eff) (attrLangField eff) (attrShuffle eff)
         (env p)).entries) ∧
    (attrMaxOpen eff = none →
       read_nemo_manifest env config eff true =
         .ok (mux
           [CutSet.ofIter (NemoIter.tarred (attrTextField eff) (attrLangField eff)
             (attrShuffle eff) (env p))]
           (some [w]) none (attrShardSeed eff))) := by
  constructor
  · intro cap hcap
    constructor
    · simp [read_nemo_manifest, hm, ht, hcap, buildStreams, NemoIter.toShards,
        List.map_map, Function.comp_def]
    · rw [emittableList_shards]
      simp [NemoIter.entries]
  · intro hcap
    simp [read_nemo_manifest, hm, ht, hcap, buildStreams]

/-- Witness for `C5_shard_splitting` at a concrete input (two shards,
cap 2, explicit weight 5). -/
theorem C5_shard_splitting_witness :
    (read_nemo_manifest exEnv shardedLeaf cappedAttrs true =
       .ok (mux
         ((exEnv "mA").map (fun s => CutSet.ofIter
           (NemoIter.tarred (attrTextField cappedAttrs) (attrLangField cappedAttrs)
             (attrShuffle cappedAttrs) [s])))
         (some ((exEnv "mA").map (fun _ => (5 : Rat)))) (some 2)
         (attrShardSeed cappedAttrs)) ∧
     emittableList exEnv
       ((exEnv "mA").map (fun s => CutSet.ofIter
         (NemoIter.tarred (attrTextField cappedAttrs) (attrLangField cappedAttrs)
           (attrShuffle cappedAttrs) [s]))) =
     (NemoIter.tarred (attrTextField cappedAttrs) (attrLangField cappedAttrs)
       (attrShuffle cappedAttrs) (exEnv "mA")).entries) :=
  (C5_shard_splitting exEnv shardedLeaf cappedAttrs "mA" "tA.tar" 5 rfl rfl).1 2 rfl

/-- Witness for `C3_zip_truncates` at a concrete input. -/
theorem C3_zip_truncates_witness :
    ∃ cw : List (CutSet × Rat), read_nemo_manifest exEnv mismatchedLeaf rootAttrs true =
        .ok (mux (cw.map Prod.fst) (some (cw.map Prod.snd)) none
              (attrShardSeed rootAttrs)) ∧
      cw.length = min 2 1 :=
  C3_zip_truncates exEnv mismatchedLeaf rootAttrs [("mA", none), ("mB", none)]
    ["tA.tar"] rfl rfl rfl

/-- C7: when the resolved children of a group disagree on `is_tarred`, the
group fails with the mixing ConfigError before any multiplexing (no stream
is returned); when resolution succeeds, every child's `is_tarred` equals
the returned common value. -/
theorem C7_is_tarred_agreement :
    (∀ (env : Env) (cl : List Item) (pa : AttrMap) (S : CutSet) (t : Bool),
       parse_and_combine_datasets env cl pa = .ok (S, t) →
       ∃ rs : List (CutSet × Bool × Option Rat),
         parse_items env cl pa = .ok rs ∧ rs ≠ [] ∧ ∀ r ∈ rs, r.2.1 = t) ∧
    (∀ (env : Env) (cl : List Item) (pa : AttrMap)
       (rs : List (CutSet × Bool × Option Rat)) (r1 r2 : CutSet × Bool × Option Rat),
       parse_items env cl pa = .ok rs → r1 ∈ rs → r2 ∈ rs → r1.2.1 ≠ r2.2.1 →
       parse_and_combine_datasets env cl pa =
         .error (.configError "Mixing tarred and non-tarred datasets is not supported.")) := by
  constructor
  · intro env cl pa S t h
    obtain ⟨rs, hrs, hne, hall, _, _⟩ := parse_and_combine_ok env cl pa S t h
    exact ⟨rs, hrs, hne, hall⟩
  · intro env cl pa rs r1 r2 hp h1 h2 hne
    cases cl with
    | nil =>
      rw [parse_items_nil] at hp
      cases hp
      simp at h1
    | cons item rest =>
      rw [parse_and_combine_datasets]
      simp only [hp]
      cases hall : (rs.map (fun r => r.2.1)).all
          (fun x => x = (rs.map (fun r => r.2.1)).headD false) with
      | false => simp [hall]
      | true =>
        exfalso
        have e1 := List.all_eq_true.mp hall _ (List.mem_map_of_mem _ h1)
        have e2 := List.all_eq_true.mp hall _ (List.mem_map_of_mem _ h2)
        exact hne ((of_decide_eq_true e1).trans (of_decide_eq_true e2).symm)

/-- Witness for `C7_is_tarred_agreement` at a concrete input. -/
theorem C7_is_tarred_agreement_witness :
    ∃ rs : List (CutSet × Bool × Option Rat),
      parse_items exEnv [nemoTarredLeaf "mA" (some 1), nemoTarredLeaf "mB" (some 2)]
        rootAttrs = .ok rs ∧ rs ≠ [] ∧ ∀ r ∈ rs, r.2.1 = true :=
  C7_is_tarred_agreement.1 exEnv
    [nemoTarredLeaf "mA" (some 1), nemoTarredLeaf "mB" (some 2)] rootAttrs
    (CutSet.mux
      [CutSet.rep (CutSet.ofIter (NemoIter.tarred "text" "lang" true [[entA], [entB]])),
       CutSet.rep (CutSet.ofIter (NemoIter.tarred "text" "lang" true [[entC]]))]
      (some [1, 2]) Seed.trng) true
    (by simp [parse_and_combine_datasets, parse_items, parse_group, applyTags,
      read_nemo_manifest, read_lhotse_manifest, buildStreams, propagateStep, propStep,
      mux, quoteStr, KNOWN_DATASET_CONFIG_TYPES, Item.itype, Item.attrs, Item.setAttr,
      Item.manifest_filepath, Item.tarred_audio_filepaths, Item.shar_path,
      Item.cuts_path, Item.tags, Item.weight, Item.components, alookup, aset,
      attrTextField, attrLangField, attrMissingOk, attrShuffle, attrShardSeed,
      attrMaxOpen, nemoTarredLeaf, rootAttrs, exEnv, entA, entB, entC,
      NemoIter.len, NemoIter.toShards, NemoIter.entries])

/-- C8: a configuration node whose `type` is outside the five known kinds
fails with a ConfigError whose message names the offending value; for each
of the four leaf kinds, a successful resolution returns `is_tarred`
matching the kind (true for the tarred/sharded kinds, false for the plain
kinds). -/
theorem C8_kind_dispatch :
    (∀ (env : Env) (item : Item) (eff pa : AttrMap),
       item.itype ∉ KNOWN_DATASET_CONFIG_TYPES →
       parse_group env item eff pa =
         .error (.configError
           ("Unknown item type in dataset config list: grp_cfg.type=" ++
             quoteStr item.itype))) ∧
    (∀ (env : Env) (item : Item) (eff pa : AttrMap) (S : CutSet) (b : Bool),
       parse_group env item eff pa = .ok (S, b) →
       (item.itype = "nemo_tarred" → b = true) ∧ (item.itype = "nemo" → b = false) ∧
       (item.itype = "lhotse_shar" → b = true) ∧ (item.itype = "lhotse" → b = false)) :=
  ⟨fun env item eff pa h => parse_group_unknown env item eff pa h,
   fun env item eff pa S b h => parse_group_kind_tarred env item eff pa S b h⟩

/-- Witness for `C8_kind_dispatch` at concrete inputs: an unknown type
`"bogus"` is rejected with a message naming it, and a resolved
`nemo_tarred` leaf reports `is_tarred = true`. -/
theorem C8_kind_dispatch_witness :
    parse_group exEnv bogusLeaf rootAttrs rootAttrs =
      .error (.configError
        ("Unknown item type in dataset config list: grp_cfg.type=" ++
          quoteStr bogusLeaf.itype)) ∧ true = true :=
  ⟨C8_kind_dispatch.1 exEnv bogusLeaf rootAttrs rootAttrs (by decide),
   (C8_kind_dispatch.2 exEnv (nemoTarredLeaf "mA" (some 1)) rootAttrs rootAttrs
     (CutSet.ofIter (NemoIter.tarred "text" "lang" true [[entA], [entB]])) true
     (by simp [parse_group, applyTags, read_nemo_manifest, quoteStr,
       KNOWN_DATASET_CONFIG_TYPES, Item.itype, Item.attrs, Item.manifest_filepath,
       Item.tarred_audio_filepaths, Item.tags, alookup, attrTextField, attrLangField,
       attrMissingOk, attrShuffle, attrShardSeed, attrMaxOpen, nemoTarredLeaf,
       rootAttrs, exEnv, entA, entB, entC])).1 rfl⟩

/-- C4: attribute propagation — for any propagated key, a child's local
value wins and is what is handed down to the child's own descendants, while
an unset key is assigned the inherited value and passed on unchanged; and a
sibling is resolved with the original `propagate_attrs`, unaffected by the
other sibling's overrides. -/
theorem C4_attribute_propagation :
    (∀ (pa : AttrMap) (it : Item) (k : String) (v w : AVal),
       (pa.map Prod.fst).Nodup → alookup k pa = some v →
       ((alookup k it.attrs = some w →
          alookup k ((propagateStep pa it).1).attrs = some w ∧
          alookup k ((propagateStep pa it).2) = some w) ∧
        (alookup k it.attrs = none →
          alookup k ((propagateStep pa it).1).attrs = some v ∧
          alookup k ((propagateStep pa it).2) = some v))) ∧
    (∀ (env : Env) (pa : AttrMap) (a b : Item)
       (ra rb : List (CutSet × Bool × Option Rat)),
       parse_items env [a] pa = .ok ra → parse_items env [b] pa = .ok rb →
       parse_items env [a, b] pa = .ok (ra ++ rb)) := by
  constructor
  · intro pa it k v w hnd hv
    constructor
    · intro hw
      exact ⟨attrs_foldl_preserved pa (it, pa) k w hw,
        next_foldl_present pa (it, pa) k w hnd hw (alookup_mem pa k v hv)⟩
    · intro habs
      have h := foldl_absent pa (it, pa) k v hnd habs hv
      exact ⟨h.1, h.2.trans hv⟩
  · intro env pa a b ra rb hra hrb
    rw [parse_items_cons] at hra
    rw [parse_items_cons]
    cases hg : parse_group env a (propagateStep pa a).1.attrs (propagateStep pa a).2 with
    | error e =>
      simp only [hg] at hra
      cases hra
    | ok st =>
      simp only [hg, parse_items_nil] at hra
      simp only [hg, hrb]
      cases hra
      rfl

/-- Witness for `C4_attribute_propagation` at a concrete input: a leaf that
locally sets `shuffle=false` under a root that propagates `shuffle=true`
keeps its own value and hands it to its descendants. -/
theorem C4_attribute_propagation_witness :
    alookup "shuffle" ((propagateStep rootAttrs overridingLeaf).1).attrs =
      some (AVal.bool false) ∧
    alookup "shuffle" ((propagateStep rootAttrs overridingLeaf).2) =
      some (AVal.bool false) :=
  (C4_attribute_propagation.1 rootAttrs overridingLeaf "shuffle"
    (AVal.bool true) (AVal.bool false) (by decide) rfl).1 rfl

/-- C9: the Tag Attacher is a pure per-record pass-through — the stream
`cuts.map(attach_tags · tags)` has exactly the input records in the same
order and count; `attach_tags` sets every tag key to its given value and
leaves all other fields unchanged; and a group's tags wrap only that
group's own multiplexed stream: a two-child group's emittable records are
exactly the first child's followed by the second child's, where a tagged
child's records are the tag-mapped records of its untagged stream —
sibling records are not affected. -/
theorem C9_tag_attachment :
    (∀ (env : Env) (tags : List (String × String)) (cs : CutSet),
       ((CutSet.mapTags tags cs).emittable env).length = (cs.emittable env).length ∧
       ∀ i : Nat, ((CutSet.mapTags tags cs).emittable env)[i]? =
         ((cs.emittable env)[i]?).map (fun e => attach_tags e tags)) ∧
    (∀ (tags : List (String × String)) (e : Entry) (k v : String),
       (tags.map Prod.fst).Nodup → (k, v) ∈ tags →
       (attach_tags e tags).getField k = some v) ∧
    (∀ (tags : List (String × String)) (e : Entry) (k : String),
       k ∉ tags.map Prod.fst → (attach_tags e tags).getField k = e.getField k) ∧
    (∀ (env : Env) (pa : AttrMap) (a b : Item) (S sa sb : CutSet) (t ta tb : Bool),
       parse_group env a (propagateStep pa a).1.attrs (propagateStep pa a).2 = .ok (sa, ta) →
       parse_group env b (propagateStep pa b).1.attrs (propagateStep pa b).2 = .ok (sb, tb) →
       parse_and_combine_datasets env [a, b] pa = .ok (S, t) →
       S.emittable env = sa.emittable env ++ sb.emittable env ∧
       ∀ T, a.tags = some T →
         ∃ inner, sa = CutSet.mapTags T inner ∧
           sa.emittable env = (inner.emittable env).map (fun e => attach_tags e T)) := by
  refine ⟨?_, ?_, ?_, ?_⟩
  · intro env tags cs
    rw [emittable_mapTags]
    exact ⟨List.length_map _ _, fun i => List.getElem?_map _ _ i⟩
  · intro tags e k v hnd hmem
    exact attach_tags_getField_mem tags e k v hnd hmem
  · intro tags e k hnm
    exact attach_tags_getField_notMem tags e k hnm
  · intro env pa a b S sa sb t ta tb hga hgb h
    obtain ⟨rs, hrs, _, _, _, hS⟩ := parse_and_combine_ok env [a, b] pa S t h
    rw [parse_items_pair env pa a b sa sb ta tb hga hgb] at hrs
    cases hrs
    constructor
    · rw [hS, emittable_mux_fn]
      simp [emittableList_cons, emittableList_nil]
    · intro T hT
      exact parse_group_tags_shape env a _ _ sa ta T hT hga

/-- Witness for `C9_tag_attachment` at a concrete input. -/
theorem C9_tag_attachment_witness :
    (attach_tags entA [("lang", "en"), ("task", "asr")]).getField "lang" = some "en" :=
  C9_tag_attachment.2.1 [("lang", "en"), ("task", "asr")] entA "lang" "en"
    (by decide) (by decide)

end Nemo
